import Mathlib

/-!
Shallow embedding of the tetrs repository (src/lib.rs, src/tetramino_shape.rs),
a falling-piece puzzle-game core, together with proofs checking the
natural-language specification against it.

Modelling conventions:
* `isize` coordinates become `ℤ`; playfield scale never overflows, matching the
  spec's "total functions over integers".
* `std::time::Instant` becomes a monotone millisecond clock `ℕ` passed
  explicitly (`now`); `Duration::from_millis` is addition on `ℕ`.
* `HashSet<Block>` is modelled as `Finset Position`: `Block`'s `PartialEq`/`Hash`
  (lib.rs 39-51) are by coordinate only, so semantically a block set is a set of
  coordinates (a separate list-level model of the hash set with colors backs the
  claim about that equality, see `BlockE` below).
* `rand::random::<TetraminoKind>()` draws are passed as explicit arguments; the
  distribution itself (tetramino_shape.rs 37-49) is the map `sampleTetraminoKind`
  from the uniformly drawn `rng.random_range(0..7)` value.
-/

/-- lib.rs 53-69: `Position { row: isize, col: isize }`. -/
structure Position where
  row : ℤ
  col : ℤ
deriving DecidableEq, Repr

namespace Position

/-- lib.rs 60-62: `Position::new`. -/
def new (row col : ℤ) : Position := ⟨row, col⟩

/-- lib.rs 63-65: `Position::is_inbound`:
`self.row < rows && self.row >= 0 && self.col < cols && self.col >= 0`. -/
def is_inbound (p : Position) (rows cols : ℤ) : Bool :=
  decide (p.row < rows) && decide (p.row ≥ 0) && decide (p.col < cols) && decide (p.col ≥ 0)

/-- lib.rs 71-80: componentwise `Add`. -/
instance : Add Position := ⟨fun a b => ⟨a.row + b.row, a.col + b.col⟩⟩

/-- lib.rs 96-105: componentwise `Sub`. -/
instance : Sub Position := ⟨fun a b => ⟨a.row - b.row, a.col - b.col⟩⟩

end Position

/-- tetramino_shape.rs 11-20: the 7 piece kinds. -/
inductive TetraminoKind
  | I | L | J | S | Z | O | T
deriving DecidableEq, Repr

/-- tetramino_shape.rs 22-26. -/
inductive RotationDirection
  | Clockwise
  | CounterClockwise
deriving DecidableEq, Repr

/-- tetramino_shape.rs 28-35: rotation states; `Init` is the spec's `Spawn`,
`Flip` the spec's `Flipped`. -/
inductive RotationState
  | Init | Right | Flip | Left
deriving DecidableEq, Repr

/-- tetramino_shape.rs 37-49: the `Distribution<TetraminoKind>` impl, as the map
applied to the uniformly drawn `rng.random_range(0usize..7)` value (the `_` arm
is reachable only by `6`). -/
def sampleTetraminoKind : Fin 7 → TetraminoKind
  | 0 => .I
  | 1 => .L
  | 2 => .J
  | 3 => .T
  | 4 => .S
  | 5 => .Z
  | 6 => .O

/-- tetramino_shape.rs 50-55: `Tetramino`; `blocks` is the coordinate set of the
`HashSet<Block>` (block identity is coordinate-only, lib.rs 39-51). -/
structure Tetramino where
  kind : TetraminoKind
  rotation_center : Position
  rotation_state : RotationState
  blocks : Finset Position
deriving DecidableEq

/-- tetramino_shape.rs 56-59: `RotationResult`; the `[Position; 5]` kick array is
modelled as `Fin 5 → Position`. -/
structure RotationResult where
  tetramino : Tetramino
  kick_offsets : Fin 5 → Position

namespace Tetramino

/-- tetramino_shape.rs 62-77: `get_next_rotation_state`. -/
def get_next_rotation_state (t : Tetramino) (direction : RotationDirection) : RotationState :=
  match direction with
  | .Clockwise =>
    match t.rotation_state with
    | .Init => .Right
    | .Right => .Flip
    | .Flip => .Left
    | .Left => .Init
  | .CounterClockwise =>
    match t.rotation_state with
    | .Init => .Left
    | .Right => .Init
    | .Flip => .Right
    | .Left => .Flip

/-- tetramino_shape.rs 94-102: `get_blocks_with_offset`. -/
def get_blocks_with_offset (t : Tetramino) (offset : Position) : Finset Position :=
  t.blocks.image (fun b => b + offset)

/-- tetramino_shape.rs 109-178: `get_offsets`, the SRS kick table rows keyed by
kind and rotation state (the `[Position; 5]` rows as `Fin 5 → Position`). -/
def get_offsets (t : Tetramino) (rotation_state : RotationState) : Fin 5 → Position :=
  match t.kind with
  | .I =>
    match rotation_state with
    | .Init =>
      ![Position.new 0 0, Position.new 0 (-1), Position.new 0 2,
        Position.new 0 (-1), Position.new 0 2]
    | .Right =>
      ![Position.new 0 (-1), Position.new 0 0, Position.new 0 0,
        Position.new (-1) 0, Position.new 2 0]
    | .Flip =>
      ![Position.new (-1) (-1), Position.new (-1) 1, Position.new (-1) (-2),
        Position.new 0 1, Position.new 0 (-2)]
    | .Left =>
      ![Position.new (-1) 0, Position.new (-1) 0, Position.new (-1) 0,
        Position.new 1 0, Position.new (-2) 0]
  | .O =>
    match rotation_state with
    | .Init => ![Position.new 0 0, Position.new 0 0, Position.new 0 0,
        Position.new 0 0, Position.new 0 0]
    | .Right => ![Position.new 1 0, Position.new 1 0, Position.new 1 0,
        Position.new 1 0, Position.new 1 0]
    | .Flip => ![Position.new 1 (-1), Position.new 1 (-1), Position.new 1 (-1),
        Position.new 1 (-1), Position.new 1 (-1)]
    | .Left => ![Position.new 0 (-1), Position.new 0 (-1), Position.new 0 (-1),
        Position.new 0 (-1), Position.new 0 (-1)]
  | _ =>
    match rotation_state with
    | .Init =>
      ![Position.new 0 0, Position.new 0 0, Position.new 0 0,
        Position.new 0 0, Position.new 0 0]
    | .Right =>
      ![Position.new 0 0, Position.new 0 1, Position.new 1 1,
        Position.new (-2) 0, Position.new (-2) 1]
    | .Flip =>
      ![Position.new 0 0, Position.new 0 0, Position.new 0 0,
        Position.new 0 0, Position.new 0 0]
    | .Left =>
      ![Position.new 0 0, Position.new 0 (-1), Position.new 1 (-1),
        Position.new (-2) 0, Position.new (-2) (-1)]

/-- tetramino_shape.rs 180-212: `process_rotation` — translate to pivot-relative
coordinates, apply the 90° map, translate back. -/
def process_rotation (t : Tetramino) (direction : RotationDirection) : Finset Position :=
  let rotation_origin_coords : Finset Position :=
    t.blocks.image (fun b => b - t.rotation_center)
  let rotated : Finset Position :=
    rotation_origin_coords.image (fun b =>
      match direction with
      | .Clockwise => Position.new b.col (-b.row)
      | .CounterClockwise => Position.new (-b.col) b.row)
  let game_coords : Finset Position :=
    rotated.image (fun b => b + t.rotation_center)
  game_coords

/-- tetramino_shape.rs 214-237: `get_rotated_and_offsets`; the `res_offsets`
loop computes `from_offsets[i] - to_offsets[i]` pointwise. -/
def get_rotated_and_offsets (t : Tetramino) (direction : RotationDirection) : RotationResult :=
  let rotated_shape := t.process_rotation direction
  let from_rotation := t.rotation_state
  let to_rotation := t.get_next_rotation_state direction
  let from_offsets := t.get_offsets from_rotation
  let to_offsets := t.get_offsets to_rotation
  { tetramino :=
      { rotation_state := to_rotation
        kind := t.kind
        blocks := rotated_shape
        rotation_center := t.rotation_center }
    kick_offsets := fun i => from_offsets i - to_offsets i }

/-- tetramino_shape.rs 238-353: `construct` — canonical block layout and pivot
per kind, `rotation_state = Init` (colors omitted: block identity is
coordinate-only). -/
def construct (kind : TetraminoKind) : Tetramino :=
  match kind with
  | .I =>
    { blocks := {Position.new 0 0, Position.new 0 1, Position.new 0 2, Position.new 0 3}
      kind := .I
      rotation_center := Position.new 0 1
      rotation_state := .Init }
  | .L =>
    { blocks := {Position.new 0 2, Position.new 1 0, Position.new 1 1, Position.new 1 2}
      kind := .L
      rotation_center := Position.new 1 1
      rotation_state := .Init }
  | .J =>
    { blocks := {Position.new 0 0, Position.new 1 0, Position.new 1 1, Position.new 1 2}
      kind := .J
      rotation_center := Position.new 1 1
      rotation_state := .Init }
  | .S =>
    { blocks := {Position.new 0 2, Position.new 0 1, Position.new 1 1, Position.new 1 0}
      kind := .S
      rotation_center := Position.new 1 1
      rotation_state := .Init }
  | .Z =>
    { blocks := {Position.new 0 0, Position.new 0 1, Position.new 1 1, Position.new 1 2}
      kind := .Z
      rotation_center := Position.new 1 1
      rotation_state := .Init }
  | .O =>
    { blocks := {Position.new 0 0, Position.new 0 1, Position.new 1 0, Position.new 1 1}
      kind := .O
      rotation_center := Position.new 1 0
      rotation_state := .Init }
  | .T =>
    { blocks := {Position.new 1 0, Position.new 1 1, Position.new 1 2, Position.new 0 1}
      kind := .T
      rotation_center := Position.new 1 1
      rotation_state := .Init }

end Tetramino

/-- lib.rs 389-416: `TimerMs { deadline: Instant, wait_ms: usize }`; `Instant`
is modelled as a millisecond count `ℕ`. -/
structure TimerMs where
  deadline : ℕ
  wait_ms : ℕ
deriving DecidableEq, Repr

namespace TimerMs

/-- lib.rs 396-401: `TimerMs::new` — deadline is `now + wait_ms`. -/
def new (now wait_ms : ℕ) : TimerMs := ⟨now + wait_ms, wait_ms⟩

/-- lib.rs 408-415: `TimerMs::update` — if the deadline has passed, reissue the
timer and report `true`; else leave it and report `false`. -/
def update (t : TimerMs) (now : ℕ) : TimerMs × Bool :=
  if t.deadline ≤ now then (new now t.wait_ms, true) else (t, false)

end TimerMs

/-- lib.rs 272-275 / 441-461: the lock-delay state. The enum declared at
lib.rs 272 lists bare `Idle` and `Delaying`, but `process_logic` (lib.rs
441-461) pattern-matches `Delaying { timer }` and `Done`; the timer payload and
the `Done` variant are modelled from the spec's `LockState =
{Idle, Delaying(timer), Locking}` (`Done` is the spec's `Locking`). -/
inductive CollisionState
  | Idle
  | Delaying (timer : TimerMs)
  | Done
deriving DecidableEq, Repr

/-- The two-variant state as declared at lib.rs 272-275, used by
`PlacementDelayManager` (whose own timer lives in a separate field). -/
inductive PlacementCollisionState
  | Idle
  | Delaying
deriving DecidableEq, Repr

/-- lib.rs 277-281: `PlacementDelayManager`. -/
structure PlacementDelayManager where
  collision_state : PlacementCollisionState
  delay_ms : ℕ
  timer : TimerMs
deriving DecidableEq, Repr

/-- lib.rs 284-290: `PlacementDelayManager::new` (its timer is `TimerMs::new(0)`). -/
def PlacementDelayManager.new (delay_ms : ℕ) (now : ℕ) : PlacementDelayManager :=
  { collision_state := .Idle
    delay_ms := delay_ms
    timer := TimerMs.new now 0 }

/-- lib.rs 107-110: `ActiveTetramino { shape, offset }`. -/
structure ActiveTetramino where
  shape : Tetramino
  offset : Position
deriving DecidableEq

namespace ActiveTetramino

/-- lib.rs 112-118: `ActiveTetramino::new` — offset is `Position::default()`,
i.e. `(0, 0)`. -/
def new (shape : Tetramino) : ActiveTetramino :=
  { shape := shape, offset := Position.new 0 0 }

/-- lib.rs 120-125: `with_offset`. -/
def with_offset (a : ActiveTetramino) (offset : Position) : ActiveTetramino :=
  { shape := a.shape, offset := offset }

/-- lib.rs 127-129: `translate_with_offset` — `self.offset += offset`. -/
def translate_with_offset (a : ActiveTetramino) (offset : Position) : ActiveTetramino :=
  { a with offset := a.offset + offset }

/-- lib.rs 131-133: `get_rotation_result`. -/
def get_rotation_result (a : ActiveTetramino) (direction : RotationDirection) : RotationResult :=
  a.shape.get_rotated_and_offsets direction

/-- lib.rs 135-144: `get_blocks_with_offset` — the piece's absolute playfield
blocks. -/
def get_blocks_with_offset (a : ActiveTetramino) : Finset Position :=
  a.shape.blocks.image (fun b => b + a.offset)

end ActiveTetramino

/-- lib.rs 202-206: `PlayfieldSize`. -/
structure PlayfieldSize where
  rows : ℤ
  cols : ℤ
deriving DecidableEq, Repr

/-- lib.rs 208-223: `PlacedBlocks` — settled geometry, a `HashSet<Block>`
modelled by its coordinate set. -/
structure PlacedBlocks where
  storage : Finset Position
deriving DecidableEq

/-- lib.rs 214-216: `get_blocks`. -/
def PlacedBlocks.get_blocks (p : PlacedBlocks) : Finset Position := p.storage

/-- lib.rs 220-222: `put_blocks` — `self.storage.extend(blocks.iter())`,
i.e. set union. -/
def PlacedBlocks.put_blocks (p : PlacedBlocks) (blocks : Finset Position) : PlacedBlocks :=
  ⟨p.storage ∪ blocks⟩

/-- lib.rs 147-150: `Playfield`. -/
structure Playfield where
  size : PlayfieldSize
  placed_blocks : PlacedBlocks
deriving DecidableEq

/-- lib.rs 240-245: the three probe directions. -/
inductive CollisionDirection
  | Down
  | Left
  | Right
deriving DecidableEq, Repr

/-- lib.rs 247-255: `CollisionDirection::offset`. -/
def CollisionDirection.offset : CollisionDirection → Position
  | .Down => Position.new 1 0
  | .Left => Position.new 0 (-1)
  | .Right => Position.new 0 1

/-- lib.rs 256-261: `CollisionResult`. -/
structure CollisionResult where
  down : Bool
  left : Bool
  right : Bool
deriving DecidableEq, Repr

namespace Playfield

/-- lib.rs 159-161: `Playfield::put_blocks`. -/
def put_blocks (pf : Playfield) (blocks : Finset Position) : Playfield :=
  { pf with placed_blocks := pf.placed_blocks.put_blocks blocks }

/-- lib.rs 162-172: `check_intersections` — true iff some candidate block
coincides with a placed block or lies out of bounds. -/
def check_intersections (pf : Playfield) (blocks : Finset Position) : Bool :=
  decide (∃ b ∈ blocks,
    b ∈ pf.placed_blocks.get_blocks ∨ b.is_inbound pf.size.rows pf.size.cols = false)

/-- lib.rs 174-199: `check_collisions` — for each probe direction, the flag is
the OR over all subject blocks of "neighbour is placed or out of bounds". -/
def check_collisions (pf : Playfield) (subject : Finset Position) : CollisionResult :=
  let blocked : CollisionDirection → Bool := fun direction =>
    decide (∃ b ∈ subject,
      b + direction.offset ∈ pf.placed_blocks.get_blocks ∨
        (b + direction.offset).is_inbound pf.size.rows pf.size.cols = false)
  { down := blocked .Down, left := blocked .Left, right := blocked .Right }

end Playfield

/-- lib.rs 312-318: `TetraminoManager`. -/
structure TetraminoManager where
  active : ActiveTetramino
  gravity_delay : TimerMs
  placement_delay : PlacementDelayManager
  next : TetraminoKind
  hold : Option Tetramino
deriving DecidableEq

namespace TetraminoManager

/-- lib.rs 320-329: `TetraminoManager::new`. The two `rand::random()` draws are
explicit arguments `active_kind` and `next_kind`; `now` feeds the two
`Instant::now()` reads inside the timer constructors. -/
def new (gravity_delay_ms placement_delay_ms : ℕ) (active_kind next_kind : TetraminoKind)
    (now : ℕ) : TetraminoManager :=
  { active := ActiveTetramino.new (Tetramino.construct active_kind)
    gravity_delay := TimerMs.new now gravity_delay_ms
    placement_delay := PlacementDelayManager.new placement_delay_ms now
    next := next_kind
    hold := none }

/-- lib.rs 334-342: `with_offset`. -/
def with_offset (tm : TetraminoManager) (offset : Position) : TetraminoManager :=
  { tm with active := tm.active.with_offset offset }

/-- lib.rs 343-346: `next_tetramino` — the new active piece is
`ActiveTetramino::new(construct(next))` (offset `(0,0)`), and `next` is redrawn
(`draw` is the explicit `rand::random()` result). -/
def next_tetramino (tm : TetraminoManager) (draw : TetraminoKind) : TetraminoManager :=
  { tm with
    active := ActiveTetramino.new (Tetramino.construct tm.next)
    next := draw }

/-- lib.rs 347-349: `rotate`. -/
def rotate (tm : TetraminoManager) (direction : RotationDirection) : RotationResult :=
  tm.active.get_rotation_result direction

end TetraminoManager

/-- lib.rs 225-238: `GameState`. -/
structure GameState where
  playfield : Playfield
  tetramino_manager : TetraminoManager
  descend_delay_timer : TimerMs
  place_delay_ms : ℕ
  collision_state : CollisionState
deriving DecidableEq

/-- lib.rs 19-22: `InputEvent` — the pressed-key set, restricted to the five
keys `process_logic` inspects (A, D, E, Q, N). -/
structure InputEvent where
  a : Bool
  d : Bool
  e : Bool
  q : Bool
  n : Bool
deriving DecidableEq, Repr

/-- The empty input set (no key pressed this tick). -/
def InputEvent.none : InputEvent := ⟨false, false, false, false, false⟩

namespace GameState

/-- lib.rs 352-369: `GameState::new` — constructor arguments feed only
`TetraminoManager::new`; the timers `process_logic` consults are hard-coded to
200 ms (`descend_delay_timer`) and 1000 ms (`place_delay_ms`), and the manager
is re-offset to `(rows / 2, cols / 2)`. -/
def new (playfield_size : PlayfieldSize) (gravity_delay_ms placement_delay_ms : ℕ)
    (active_kind next_kind : TetraminoKind) (now : ℕ) : GameState :=
  { playfield := { size := playfield_size, placed_blocks := ⟨∅⟩ }
    descend_delay_timer := TimerMs.new now 200
    place_delay_ms := 1000
    collision_state := .Idle
    tetramino_manager :=
      (TetraminoManager.new gravity_delay_ms placement_delay_ms active_kind next_kind
        now).with_offset
        (Position.new (playfield_size.rows / 2) (playfield_size.cols / 2)) }

/-- Does the rotation candidate `kick_offset` intersect? (the loop condition of
`try_rotate`, lib.rs 374-379). -/
def rotationBlocked (gs : GameState) (rr : RotationResult) (kick_offset : Position) : Bool :=
  gs.playfield.check_intersections
    (rr.tetramino.get_blocks_with_offset (gs.tetramino_manager.active.offset + kick_offset))

/-- Committing an accepted kick candidate (lib.rs 380-381): set the active shape
to the rotated shape and add the candidate to the offset. -/
def commitRotation (gs : GameState) (rr : RotationResult) (kick_offset : Position) : GameState :=
  { gs with
    tetramino_manager :=
      { gs.tetramino_manager with
        active :=
          { shape := rr.tetramino
            offset := gs.tetramino_manager.active.offset + kick_offset } } }

/-- The `for kick_offset in rotation_result.kick_offsets` loop of `try_rotate`
(lib.rs 374-384): try candidates in order, commit the first that does not
intersect, `break`; fall through unchanged when all fail. -/
def tryRotateAux (gs : GameState) (rr : RotationResult) : List Position → GameState
  | [] => gs
  | kick_offset :: rest =>
    if gs.rotationBlocked rr kick_offset then tryRotateAux gs rr rest
    else gs.commitRotation rr kick_offset

/-- lib.rs 371-385: `try_rotate`. -/
def try_rotate (gs : GameState) (direction : RotationDirection) : GameState :=
  let rotation_result := gs.tetramino_manager.rotate direction
  tryRotateAux gs rotation_result (List.ofFn rotation_result.kick_offsets)

/-- Modelled from the spec: `GameState::check_collision` is called by
`process_logic` (lib.rs 419) but missing from src; per spec §4.7 step 1 it
computes the `CollisionResult` for the active piece's absolute blocks against
the playfield. -/
def check_collision (gs : GameState) : CollisionResult :=
  gs.playfield.check_collisions gs.tetramino_manager.active.get_blocks_with_offset

/-- Modelled from the spec: `GameState::translate_cur_tetramino` is called by
`process_logic` (lib.rs 421/424/437) but missing from src; per spec §4.7 it
translates the active piece's offset (via `translate_with_offset`, lib.rs
127-129, which is in src). -/
def translate_cur_tetramino (gs : GameState) (offset : Position) : GameState :=
  { gs with
    tetramino_manager :=
      { gs.tetramino_manager with
        active := gs.tetramino_manager.active.translate_with_offset offset } }

/-- Modelled from the spec: `GameState::next_turn` is called by `process_logic`
(lib.rs 433/454) but missing from src; per spec §4.6 it advances the turn
manager (via `TetraminoManager::next_tetramino`, lib.rs 343-346, which is in
src; `draw` is the explicit random redraw). -/
def next_turn (gs : GameState) (draw : TetraminoKind) : GameState :=
  { gs with tetramino_manager := gs.tetramino_manager.next_tetramino draw }

/-- Modelled from the spec: `GameState::place_current_tetramino` is called by
`process_logic` (lib.rs 453) but missing from src; per spec §4.5 it places the
active piece's absolute blocks into `PlacedBlocks` (via `Playfield::put_blocks`,
lib.rs 159-161, which is in src). -/
def place_current_tetramino (gs : GameState) : GameState :=
  { gs with
    playfield := gs.playfield.put_blocks gs.tetramino_manager.active.get_blocks_with_offset }

end GameState

/-- lib.rs 436-439: the gravity block of `process_logic`. Rust's `&&`
short-circuits, so the gravity timer is polled (and possibly reissued) only when
`!collision.down`; on expiry the piece moves down one row and the lock state is
forced to `Idle`. -/
def gravityStep (gs : GameState) (collision_down : Bool) (now : ℕ) : GameState :=
  if collision_down = false then
    let u := gs.descend_delay_timer.update now
    let gs' := { gs with descend_delay_timer := u.1 }
    if u.2 then
      { gs'.translate_cur_tetramino (Position.new 1 0) with collision_state := .Idle }
    else gs'
  else gs

/-- lib.rs 441-461: the lock-delay state machine of `process_logic`, matched on
the (post-gravity) `collision_state` with the pre-movement `collision.down`. -/
def lockStep (gs : GameState) (collision_down : Bool) (now : ℕ) (draw : TetraminoKind) :
    GameState :=
  match gs.collision_state with
  | .Idle =>
    if collision_down then
      { gs with collision_state := .Delaying (TimerMs.new now gs.place_delay_ms) }
    else
      { gs with collision_state := .Idle }
  | .Delaying timer =>
    if (timer.update now).2 then
      { (gs.place_current_tetramino.next_turn draw) with collision_state := .Done }
    else
      { gs with collision_state := .Delaying timer }
  | .Done => { gs with collision_state := .Idle }

/-- lib.rs 418-462: `process_logic`, one tick. `collision` is computed once,
up-front, from the pre-movement state; the N-key and lock-expiry calls to
`next_turn` each consume a fresh random draw (`drawN`, `drawLock`); `now` is the
tick's monotone clock reading. -/
def processLogic (gs : GameState) (input : InputEvent) (now : ℕ)
    (drawN drawLock : TetraminoKind) : GameState :=
  let collision := gs.check_collision
  let gs1 := if input.a && !collision.left then
    gs.translate_cur_tetramino (Position.new 0 (-1)) else gs
  let gs2 := if input.d && !collision.right then
    gs1.translate_cur_tetramino (Position.new 0 1) else gs1
  let gs3 := if input.e then gs2.try_rotate .Clockwise else gs2
  let gs4 := if input.q then gs3.try_rotate .CounterClockwise else gs3
  let gs5 := if input.n then gs4.next_turn drawN else gs4
  let gs6 := gravityStep gs5 collision.down now
  lockStep gs6 collision.down now drawLock

/-- Modelled from the spec's words (§4.3 steps 1-3), for comparison with the
source's `process_rotation`: `rel = block - pivot`; clockwise maps
`(row,col) -> (col,-row)`, counter-clockwise maps `(row,col) -> (-col,row)`;
`new_block = rotated_rel + pivot`. -/
def specRotatedBlock (direction : RotationDirection) (pivot b : Position) : Position :=
  let rel := b - pivot
  let rotated_rel :=
    match direction with
    | .Clockwise => Position.new rel.col (-rel.row)
    | .CounterClockwise => Position.new (-rel.col) rel.row
  rotated_rel + pivot

/-- Modelled from the spec's words (§3/§4.3), for comparison with the source's
`get_next_rotation_state`: one step along the 4-cycle
Spawn→Right→Flipped→Left→Spawn in the rotation's direction (clockwise forward,
counter-clockwise backward); `Spawn`/`Flipped` are the source's `Init`/`Flip`. -/
def specRotationCycleNext (direction : RotationDirection) : RotationState → RotationState :=
  match direction with
  | .Clockwise => fun s =>
    match s with
    | .Init => .Right
    | .Right => .Flip
    | .Flip => .Left
    | .Left => .Init
  | .CounterClockwise => fun s =>
    match s with
    | .Init => .Left
    | .Right => .Init
    | .Flip => .Right
    | .Left => .Flip

/-- The shape returned by one application of the rotation operation
(`get_rotated_and_offsets`, discarding the kick candidates). -/
def Tetramino.rotateShape (t : Tetramino) (direction : RotationDirection) : Tetramino :=
  (t.get_rotated_and_offsets direction).tetramino

/-- The colors used by the source (macroquad color constants referenced in
lib.rs / tetramino_shape.rs). -/
inductive Color
  | red | blue | darkblue | orange | green | yellow | purple
deriving DecidableEq, Repr

/-- lib.rs 24-28: `Block { color, coordinates }`, modelled explicitly (with its
color) to state the claim about `Block`'s equality; elsewhere block sets are
represented by their coordinate sets. -/
structure BlockE where
  color : Color
  coordinates : Position
deriving DecidableEq, Repr

/-- lib.rs 39-45: the `PartialEq` impl for `Block` — equality compares
`coordinates` only (the `Hash` impl, lib.rs 47-51, likewise hashes only the
coordinates, so hash-set membership is governed by this equality). -/
def blockEq (b1 b2 : BlockE) : Bool :=
  decide (b1.coordinates = b2.coordinates)

/-- Membership in a `HashSet<Block>` under the coordinate-only equality. -/
def hsContains (s : List BlockE) (b : BlockE) : Bool :=
  s.any (fun b' => blockEq b' b)

/-- Insertion (`HashSet::insert`) under the coordinate-only equality: a block whose
coordinate is already present is not added (the set keeps the existing
element). -/
def hsInsert (s : List BlockE) (b : BlockE) : List BlockE :=
  if hsContains s b then s else s ++ [b]

/-- Extension (`HashSet::extend`; lib.rs 220-222, `PlacedBlocks::put_blocks`): insert each
block of `blocks` in turn. -/
def hsPutBlocks (s : List BlockE) (blocks : List BlockE) : List BlockE :=
  blocks.foldl hsInsert s

/-- The stored blocks have pairwise distinct coordinates. -/
def hsCoordsNodup (s : List BlockE) : Prop :=
  (s.map BlockE.coordinates).Nodup

/-- Normalize the two `TetraminoManager` fields that `process_logic` never
reads (`gravity_delay`, `placement_delay`): two states with equal
normalizations have identical tick-observable content. -/
def stripGdPd (gs : GameState) : GameState :=
  { gs with
    tetramino_manager :=
      { gs.tetramino_manager with
        gravity_delay := TimerMs.new 0 0
        placement_delay := PlacementDelayManager.new 0 0 } }

/-- Overwrite the two `TetraminoManager` fields that `process_logic` never
reads. -/
def setGdPd (gs : GameState) (gd : TimerMs) (pd : PlacementDelayManager) : GameState :=
  { gs with
    tetramino_manager :=
      { gs.tetramino_manager with
        gravity_delay := gd
        placement_delay := pd } }

/-- A 1×1 playfield game state with an active I piece: every kick candidate of
a rotation attempt intersects (the rotated I piece never fits in one cell). -/
def witnessGS1 : GameState := GameState.new ⟨1, 1⟩ 200 1000 .I .O 0

/-- A 10×10 empty playfield with the active O piece at offset `(5,5)`: not
grounded (`down = false`). -/
def witnessGS10 : GameState := GameState.new ⟨10, 10⟩ 200 1000 .O .I 0

/-- A 4×4 game state whose lock state is the transient `Done` (the spec's
`Locking`). -/
def witnessGSDone : GameState :=
  { GameState.new ⟨4, 4⟩ 200 1000 .O .I 0 with collision_state := .Done }

/-- The 5×5 empty playfield used to test `check_collisions`. -/
def witnessPf5 : Playfield := { size := ⟨5, 5⟩, placed_blocks := ⟨∅⟩ }

theorem Position.add_def (a b : Position) : a + b = ⟨a.row + b.row, a.col + b.col⟩ := rfl

theorem Position.sub_def (a b : Position) : a - b = ⟨a.row - b.row, a.col - b.col⟩ := rfl

/-- The three successive images of `process_rotation` collapse to one image of
the spec's composite pivot-relative rotation map. -/
theorem process_rotation_eq_image (t : Tetramino) (d : RotationDirection) :
    t.process_rotation d = t.blocks.image (specRotatedBlock d t.rotation_center) := by
  simp only [Tetramino.process_rotation, Finset.image_image]
  rfl

theorem rotateShape_center (t : Tetramino) (d : RotationDirection) :
    (t.rotateShape d).rotation_center = t.rotation_center := rfl

theorem rotateShape_blocks (t : Tetramino) (d : RotationDirection) :
    (t.rotateShape d).blocks = t.blocks.image (specRotatedBlock d t.rotation_center) :=
  process_rotation_eq_image t d

/-- Four applications of the pivot-relative quarter-turn are the identity. -/
theorem specRotatedBlock_iterate4 (d : RotationDirection) (c p : Position) :
    specRotatedBlock d c (specRotatedBlock d c (specRotatedBlock d c (specRotatedBlock d c p)))
      = p := by
  cases d <;>
    (cases p
     cases c
     simp only [specRotatedBlock, Position.new, Position.add_def, Position.sub_def,
       Position.mk.injEq]
     constructor <;> ring)

/-- C1: for every shape and rotation direction, `rotate` produces the new block
set by mapping each block `b` to `rel = b - pivot`, applying the direction's 90°
map — clockwise `(row,col) -> (col,-row)`, counter-clockwise
`(row,col) -> (-col,row)` — and translating back by `+ pivot`; and the returned
shape's `rotation_state` is exactly one step from the original along the 4-cycle
Spawn→Right→Flipped→Left→Spawn in the rotation's direction. -/
theorem claim_C1 (t : Tetramino) (d : RotationDirection) :
    (t.get_rotated_and_offsets d).tetramino.blocks
        = t.blocks.image (specRotatedBlock d t.rotation_center) ∧
      (t.get_rotated_and_offsets d).tetramino.rotation_state
        = specRotationCycleNext d t.rotation_state := by
  refine ⟨process_rotation_eq_image t d, ?_⟩
  rcases t with ⟨k, c, s, bl⟩
  cases d <;> cases s <;> rfl

/-- C9: applying the rotation operation four times in either fixed direction
returns a shape with the original `rotation_state` and the original relative
block coordinate set (rotation generates a group of order 4). -/
theorem claim_C9 (t : Tetramino) (d : RotationDirection) :
    ((((t.rotateShape d).rotateShape d).rotateShape d).rotateShape d).rotation_state
        = t.rotation_state ∧
      ((((t.rotateShape d).rotateShape d).rotateShape d).rotateShape d).blocks = t.blocks := by
  constructor
  · rcases t with ⟨k, c, s, bl⟩
    cases d <;> cases s <;> rfl
  · simp only [rotateShape_blocks, rotateShape_center, Finset.image_image]
    refine (Finset.image_congr (g := id) ?_).trans t.blocks.image_id
    intro p _
    exact specRotatedBlock_iterate4 d t.rotation_center p

/-- C2: for every shape and rotation direction, the i-th kick candidate of
`rotate` is `from_offset[i] - to_offset[i]` over the table rows for the current
and next rotation states; and for the O piece all 5 candidates coincide — every
O rotation attempt has exactly one effective kick offset. -/
theorem claim_C2 (t : Tetramino) (d : RotationDirection) :
    (∀ i : Fin 5,
        (t.get_rotated_and_offsets d).kick_offsets i
          = t.get_offsets t.rotation_state i
              - t.get_offsets (t.get_next_rotation_state d) i) ∧
      (t.kind = .O → ∀ i j : Fin 5,
        (t.get_rotated_and_offsets d).kick_offsets i
          = (t.get_rotated_and_offsets d).kick_offsets j) := by
  refine ⟨fun i => rfl, fun hO i j => ?_⟩
  rcases t with ⟨k, c, s, bl⟩
  simp only at hO
  subst hO
  cases d <;> cases s <;> fin_cases i <;> fin_cases j <;> rfl

/-- Witness for C2 at the concrete O piece: the first and fourth kick candidates
of a clockwise rotation attempt coincide. -/
theorem claim_C2_witness :
    ((Tetramino.construct .O).get_rotated_and_offsets .Clockwise).kick_offsets 0
      = ((Tetramino.construct .O).get_rotated_and_offsets .Clockwise).kick_offsets 3 :=
  (claim_C2 (Tetramino.construct .O) .Clockwise).2 rfl 0 3

/-- If every candidate in the list intersects, the `try_rotate` loop falls
through and leaves the state untouched. -/
theorem tryRotateAux_all_blocked (gs : GameState) (rr : RotationResult) :
    ∀ l : List Position, (∀ k ∈ l, gs.rotationBlocked rr k = true) →
      GameState.tryRotateAux gs rr l = gs := by
  intro l
  induction l with
  | nil => intro _; rfl
  | cons k rest ih =>
    intro h
    simp only [GameState.tryRotateAux, h k (List.mem_cons_self k rest), if_true]
    exact ih fun k' hk' => h k' (List.mem_cons_of_mem k hk')

/-- If every candidate before `k` intersects and `k` does not, the `try_rotate`
loop commits exactly `k`. -/
theorem tryRotateAux_first_clear (gs : GameState) (rr : RotationResult) :
    ∀ (l1 : List Position) (k : Position) (l2 : List Position),
      (∀ k' ∈ l1, gs.rotationBlocked rr k' = true) → gs.rotationBlocked rr k = false →
      GameState.tryRotateAux gs rr (l1 ++ k :: l2) = gs.commitRotation rr k := by
  intro l1
  induction l1 with
  | nil =>
    intro k l2 _ hk
    simp only [List.nil_append, GameState.tryRotateAux, hk, Bool.false_eq_true, if_false]
  | cons k0 rest ih =>
    intro k l2 h1 hk
    simp only [List.cons_append, GameState.tryRotateAux,
      h1 k0 (List.mem_cons_self k0 rest), if_true]
    exact ih k l2 (fun k' hk' => h1 k' (List.mem_cons_of_mem k0 hk')) hk

/-- C3: for every game state and rotation direction, the rotation attempt tests
the 5 kick candidates in table order against `check_intersections` of the
rotated blocks translated by (current offset + candidate)
(= `rotationBlocked`); it commits exactly the first candidate that does not
intersect — setting the active shape to the rotated shape and adding that
candidate to the offset, all other state untouched (`commitRotation`) — and if
all 5 candidates intersect, `try_rotate` returns the state completely unchanged
(no error is reported: the function is total and yields the input state). -/
theorem claim_C3 (gs : GameState) (direction : RotationDirection) (rr : RotationResult)
    (hrr : rr = gs.tetramino_manager.rotate direction) :
    ((∀ k ∈ List.ofFn rr.kick_offsets, gs.rotationBlocked rr k = true) →
        gs.try_rotate direction = gs) ∧
      (∀ i : Fin 5,
        (∀ j : Fin 5, j < i → gs.rotationBlocked rr (rr.kick_offsets j) = true) →
        gs.rotationBlocked rr (rr.kick_offsets i) = false →
        gs.try_rotate direction = gs.commitRotation rr (rr.kick_offsets i)) := by
  subst hrr
  set rr := gs.tetramino_manager.rotate direction with hrr
  constructor
  · intro h
    exact tryRotateAux_all_blocked gs rr (List.ofFn rr.kick_offsets) h
  · intro i hbefore hclear
    have hofn : List.ofFn rr.kick_offsets
        = [rr.kick_offsets 0, rr.kick_offsets 1, rr.kick_offsets 2, rr.kick_offsets 3,
           rr.kick_offsets 4] := rfl
    show GameState.tryRotateAux gs rr (List.ofFn rr.kick_offsets) = _
    rw [hofn]
    fin_cases i
    · exact tryRotateAux_first_clear gs rr [] (rr.kick_offsets 0) _ (by simp) hclear
    · refine tryRotateAux_first_clear gs rr [rr.kick_offsets 0] (rr.kick_offsets 1) _ ?_ hclear
      intro k' hk'
      rw [List.mem_singleton] at hk'
      subst hk'
      exact hbefore 0 (by decide)
    · refine tryRotateAux_first_clear gs rr [rr.kick_offsets 0, rr.kick_offsets 1]
        (rr.kick_offsets 2) _ ?_ hclear
      intro k' hk'
      rcases List.mem_cons.1 hk' with h | h
      · subst h; exact hbefore 0 (by decide)
      · rw [List.mem_singleton] at h; subst h; exact hbefore 1 (by decide)
    · refine tryRotateAux_first_clear gs rr
        [rr.kick_offsets 0, rr.kick_offsets 1, rr.kick_offsets 2] (rr.kick_offsets 3) _ ?_
        hclear
      intro k' hk'
      rcases List.mem_cons.1 hk' with h | h
      · subst h; exact hbefore 0 (by decide)
      rcases List.mem_cons.1 h with h' | h'
      · subst h'; exact hbefore 1 (by decide)
      · rw [List.mem_singleton] at h'; subst h'; exact hbefore 2 (by decide)
    · refine tryRotateAux_first_clear gs rr
        [rr.kick_offsets 0, rr.kick_offsets 1, rr.kick_offsets 2, rr.kick_offsets 3]
        (rr.kick_offsets 4) _ ?_ hclear
      intro k' hk'
      rcases List.mem_cons.1 hk' with h | h
      · subst h; exact hbefore 0 (by decide)
      rcases List.mem_cons.1 h with h' | h'
      · subst h'; exact hbefore 1 (by decide)
      rcases List.mem_cons.1 h' with h'' | h''
      · subst h''; exact hbefore 2 (by decide)
      · rw [List.mem_singleton] at h''; subst h''; exact hbefore 3 (by decide)

/-- Witness for C3 on the 1×1 playfield: every kick candidate of a clockwise I
rotation intersects, so the rotation is rejected and the state is unchanged. -/
theorem claim_C3_witness : witnessGS1.try_rotate .Clockwise = witnessGS1 :=
  (claim_C3 witnessGS1 .Clockwise (witnessGS1.tetramino_manager.rotate .Clockwise) rfl).1
    (by decide)

theorem is_inbound_iff (p : Position) (rows cols : ℤ) :
    p.is_inbound rows cols = true
      ↔ p.row < rows ∧ 0 ≤ p.row ∧ p.col < cols ∧ 0 ≤ p.col := by
  simp only [Position.is_inbound, Bool.and_eq_true, decide_eq_true_eq, ge_iff_le]
  tauto

theorem is_inbound_false_iff (p : Position) (rows cols : ℤ) :
    p.is_inbound rows cols = false
      ↔ ¬(p.row < rows ∧ 0 ≤ p.row ∧ p.col < cols ∧ 0 ≤ p.col) := by
  rw [← is_inbound_iff]
  cases h : p.is_inbound rows cols <;> simp

/-- C5 counterexample: on an empty 5×5 playfield, the subject block `(0,-1)` is
reported colliding downward — its down-neighbour `(1,-1)` is out of bounds by
column — although the claim's characterization `(r+1,c) ∈ P ∨ r+1 ≥ R` is false
for it, so the claimed "iff" fails for general subject block sets. -/
theorem claim_C5_counterexample :
    (witnessPf5.check_collisions {Position.new 0 (-1)}).down = true ∧
      ¬(∃ b ∈ ({Position.new 0 (-1)} : Finset Position),
        Position.new (b.row + 1) b.col ∈ witnessPf5.placed_blocks.get_blocks ∨
          b.row + 1 ≥ witnessPf5.size.rows) := by
  decide

/-- C5 (amended): each `check_collisions` flag is the logical OR over the
subject's blocks of "the direction's neighbour is a placed block or out of the
playfield bounds" (the general characterization, first three conjuncts); and
when every subject block is itself in bounds this reduces, for down, to
`(r+1,c) ∈ P ∨ r+1 ≥ R`, and symmetrically for left (`(r,c-1) ∈ P ∨ c-1 < 0`)
and right (`(r,c+1) ∈ P ∨ c+1 ≥ C`) (last three conjuncts). -/
theorem claim_C5_amended (pf : Playfield) (S : Finset Position)
    (h : ∀ b ∈ S, b.is_inbound pf.size.rows pf.size.cols = true) :
    ((pf.check_collisions S).down = true ↔
        ∃ b ∈ S, b + CollisionDirection.Down.offset ∈ pf.placed_blocks.get_blocks ∨
          (b + CollisionDirection.Down.offset).is_inbound pf.size.rows pf.size.cols = false) ∧
      ((pf.check_collisions S).left = true ↔
        ∃ b ∈ S, b + CollisionDirection.Left.offset ∈ pf.placed_blocks.get_blocks ∨
          (b + CollisionDirection.Left.offset).is_inbound pf.size.rows pf.size.cols = false) ∧
      ((pf.check_collisions S).right = true ↔
        ∃ b ∈ S, b + CollisionDirection.Right.offset ∈ pf.placed_blocks.get_blocks ∨
          (b + CollisionDirection.Right.offset).is_inbound pf.size.rows pf.size.cols = false) ∧
      ((pf.check_collisions S).down = true ↔
        ∃ b ∈ S, Position.new (b.row + 1) b.col ∈ pf.placed_blocks.get_blocks ∨
          b.row + 1 ≥ pf.size.rows) ∧
      ((pf.check_collisions S).left = true ↔
        ∃ b ∈ S, Position.new b.row (b.col - 1) ∈ pf.placed_blocks.get_blocks ∨
          b.col - 1 < 0) ∧
      ((pf.check_collisions S).right = true ↔
        ∃ b ∈ S, Position.new b.row (b.col + 1) ∈ pf.placed_blocks.get_blocks ∨
          b.col + 1 ≥ pf.size.cols) := by
  have hdown : (pf.check_collisions S).down = true ↔
      ∃ b ∈ S, b + CollisionDirection.Down.offset ∈ pf.placed_blocks.get_blocks ∨
        (b + CollisionDirection.Down.offset).is_inbound pf.size.rows pf.size.cols = false := by
    simp only [Playfield.check_collisions, decide_eq_true_eq]
  have hleft : (pf.check_collisions S).left = true ↔
      ∃ b ∈ S, b + CollisionDirection.Left.offset ∈ pf.placed_blocks.get_blocks ∨
        (b + CollisionDirection.Left.offset).is_inbound pf.size.rows pf.size.cols = false := by
    simp only [Playfield.check_collisions, decide_eq_true_eq]
  have hright : (pf.check_collisions S).right = true ↔
      ∃ b ∈ S, b + CollisionDirection.Right.offset ∈ pf.placed_blocks.get_blocks ∨
        (b + CollisionDirection.Right.offset).is_inbound pf.size.rows pf.size.cols = false := by
    simp only [Playfield.check_collisions, decide_eq_true_eq]
  refine ⟨hdown, hleft, hright, ?_, ?_, ?_⟩
  · rw [hdown]
    refine exists_congr fun b => and_congr_right fun hb => ?_
    have hb' := (is_inbound_iff b pf.size.rows pf.size.cols).1 (h b hb)
    have hoff : b + CollisionDirection.Down.offset = Position.new (b.row + 1) b.col := by
      simp [CollisionDirection.offset, Position.add_def, Position.new]
    rw [hoff, is_inbound_false_iff]
    refine or_congr Iff.rfl ?_
    simp only [Position.new]
    omega
  · rw [hleft]
    refine exists_congr fun b => and_congr_right fun hb => ?_
    have hb' := (is_inbound_iff b pf.size.rows pf.size.cols).1 (h b hb)
    have hoff : b + CollisionDirection.Left.offset = Position.new b.row (b.col - 1) := by
      simp [CollisionDirection.offset, Position.add_def, Position.new]
      ring
    rw [hoff, is_inbound_false_iff]
    refine or_congr Iff.rfl ?_
    simp only [Position.new]
    omega
  · rw [hright]
    refine exists_congr fun b => and_congr_right fun hb => ?_
    have hb' := (is_inbound_iff b pf.size.rows pf.size.cols).1 (h b hb)
    have hoff : b + CollisionDirection.Right.offset = Position.new b.row (b.col + 1) := by
      simp [CollisionDirection.offset, Position.add_def, Position.new]
    rw [hoff, is_inbound_false_iff]
    refine or_congr Iff.rfl ?_
    simp only [Position.new]
    omega

/-- Witness for C5 (amended) at a concrete in-bounds subject on the empty 5×5
playfield. -/
theorem claim_C5_witness :
    (witnessPf5.check_collisions {Position.new 4 0}).down = true ↔
      ∃ b ∈ ({Position.new 4 0} : Finset Position),
        Position.new (b.row + 1) b.col ∈ witnessPf5.placed_blocks.get_blocks ∨
          b.row + 1 ≥ witnessPf5.size.rows :=
  (claim_C5_amended witnessPf5 {Position.new 4 0} (by decide)).2.2.2.1

/-- C4 counterexample: in a 20×10 session (`cols/2 = 5`), advancing to the next
piece constructs the new active piece at offset `(0,0)` (`Position::default()`),
not at the claimed top-center `(0, cols/2) = (0,5)`. -/
theorem claim_C4_counterexample :
    ((GameState.new ⟨20, 10⟩ 200 1000 .I .O 0).next_turn
          .L).tetramino_manager.active.offset = Position.new 0 0 ∧
      Position.new 0 0 ≠ Position.new 0 ((10 : ℤ) / 2) := by
  decide

/-- C4 (amended): whenever the turn manager advances, the new active piece is
`ActiveTetramino::new(construct(next))` — positioned at offset
`Position::default() = (0,0)` (top-left), not at the playfield's top-center —
and the stored next kind is replaced by the fresh uniform draw; the sampling map
from the uniformly distributed range `0..7` hits each of the 7 kinds exactly
once (each kind has probability 1/7). -/
theorem claim_C4_amended (tm : TetraminoManager) (draw : TetraminoKind) :
    (tm.next_tetramino draw).active = ActiveTetramino.new (Tetramino.construct tm.next) ∧
      (tm.next_tetramino draw).active.offset = Position.new 0 0 ∧
      (tm.next_tetramino draw).next = draw ∧
      ∀ k : TetraminoKind,
        (Finset.univ.filter fun n : Fin 7 => sampleTetraminoKind n = k).card = 1 := by
  refine ⟨rfl, rfl, rfl, ?_⟩
  intro k
  cases k <;> decide

/-- The `Block` equality of lib.rs 39-45 compares coordinates only: two blocks
at the same coordinate are equal regardless of color. -/
theorem blockEq_iff (b1 b2 : BlockE) :
    blockEq b1 b2 = true ↔ b1.coordinates = b2.coordinates := by
  simp [blockEq]

/-- Inserting one block under the coordinate-only equality preserves the
no-duplicate-coordinate invariant. -/
theorem hsInsert_coordsNodup (s : List BlockE) (b : BlockE) (h : hsCoordsNodup s) :
    hsCoordsNodup (hsInsert s b) := by
  unfold hsInsert
  split
  · exact h
  · rename_i hcon
    unfold hsCoordsNodup
    rw [List.map_append, List.map_singleton]
    refine List.Nodup.append h (List.nodup_singleton _) ?_
    intro c hc1 hc2
    rw [List.mem_singleton] at hc2
    subst hc2
    rcases List.mem_map.1 hc1 with ⟨b', hb', hcoord⟩
    have : hsContains s b = true := by
      unfold hsContains
      rw [List.any_eq_true]
      exact ⟨b', hb', (blockEq_iff b' b).2 hcoord⟩
    simp [this] at hcon

/-- Inserting a block whose coordinate is already present leaves the set
unchanged, hence its size unchanged. -/
theorem hsInsert_mem_length (s : List BlockE) (b : BlockE)
    (h : ∃ b' ∈ s, b'.coordinates = b.coordinates) :
    (hsInsert s b).length = s.length := by
  unfold hsInsert
  rcases h with ⟨b', hb', hcoord⟩
  have : hsContains s b = true := by
    unfold hsContains
    rw [List.any_eq_true]
    exact ⟨b', hb', (blockEq_iff b' b).2 hcoord⟩
  rw [this]
  simp

/-- Merging any block list preserves the no-duplicate-coordinate invariant. -/
theorem hsPutBlocks_coordsNodup (blocks : List BlockE) :
    ∀ s : List BlockE, hsCoordsNodup s → hsCoordsNodup (hsPutBlocks s blocks) := by
  induction blocks with
  | nil => intro s h; exact h
  | cons b rest ih =>
    intro s h
    exact ih (hsInsert s b) (hsInsert_coordsNodup s b h)

/-- C8: block equality (and hashing) is by coordinate only — equal coordinates
mean equal blocks regardless of color — and therefore merging blocks into a
placed set via `put_blocks` never yields two entries with the same coordinate;
in particular inserting a block whose coordinate is already present leaves the
set size unchanged. -/
theorem claim_C8 :
    (∀ b1 b2 : BlockE, blockEq b1 b2 = true ↔ b1.coordinates = b2.coordinates) ∧
      (∀ s blocks : List BlockE, hsCoordsNodup s → hsCoordsNodup (hsPutBlocks s blocks)) ∧
      (∀ (s : List BlockE) (b : BlockE),
        (∃ b' ∈ s, b'.coordinates = b.coordinates) → (hsInsert s b).length = s.length) :=
  ⟨blockEq_iff, fun s blocks h => hsPutBlocks_coordsNodup blocks s h, hsInsert_mem_length⟩

/-- Witness for C8: inserting a blue block at `(0,0)` into a set already holding
a red block at `(0,0)` leaves the size at 1. -/
theorem claim_C8_witness :
    (hsInsert [⟨Color.red, Position.new 0 0⟩] ⟨Color.blue, Position.new 0 0⟩).length
      = [(⟨Color.red, Position.new 0 0⟩ : BlockE)].length :=
  claim_C8.2.2 [⟨Color.red, Position.new 0 0⟩] ⟨Color.blue, Position.new 0 0⟩ (by decide)

/-- With no key pressed, a tick is the gravity block followed by the lock-delay
state machine, both fed the pre-movement `collision.down`. -/
theorem processLogic_none (gs : GameState) (now : ℕ) (drawN drawLock : TetraminoKind) :
    processLogic gs InputEvent.none now drawN drawLock
      = lockStep (gravityStep gs gs.check_collision.down now) gs.check_collision.down now
          drawLock := by
  simp [processLogic, InputEvent.none]

/-- When the piece is grounded (`down = true`), Rust's short-circuit `&&` skips
the gravity timer poll entirely. -/
theorem gravityStep_down_true (gs : GameState) (now : ℕ) :
    gravityStep gs true now = gs := by
  simp [gravityStep]

/-- C6: the per-tick lock-delay transition (no input keys): `Idle` with
`down = true` moves to `Delaying` with a freshly started lock-delay timer;
`Delaying` with an unexpired timer, while grounded, remains `Delaying` with the
same timer (not restarted); `Delaying` with an expired timer places the active
piece's absolute blocks into `PlacedBlocks`, advances to the next piece, and
moves to the transient `Done` state (the spec's `Locking`); and `Done` moves
back to `Idle` unconditionally on the next tick, so the lock event is observed
exactly once. -/
theorem claim_C6 (gs : GameState) (now : ℕ) (drawN drawLock : TetraminoKind) :
    (gs.collision_state = .Idle → gs.check_collision.down = true →
        (processLogic gs InputEvent.none now drawN drawLock).collision_state
          = .Delaying (TimerMs.new now gs.place_delay_ms)) ∧
      (∀ t0 : TimerMs, gs.collision_state = .Delaying t0 → gs.check_collision.down = true →
        ¬t0.deadline ≤ now →
        (processLogic gs InputEvent.none now drawN drawLock).collision_state = .Delaying t0) ∧
      (∀ t0 : TimerMs, gs.collision_state = .Delaying t0 → gs.check_collision.down = true →
        t0.deadline ≤ now →
        (processLogic gs InputEvent.none now drawN drawLock).playfield.placed_blocks.get_blocks
            = gs.playfield.placed_blocks.get_blocks
                ∪ gs.tetramino_manager.active.get_blocks_with_offset ∧
          (processLogic gs InputEvent.none now drawN drawLock).tetramino_manager.active
            = ActiveTetramino.new (Tetramino.construct gs.tetramino_manager.next) ∧
          (processLogic gs InputEvent.none now drawN drawLock).tetramino_manager.next
            = drawLock ∧
          (processLogic gs InputEvent.none now drawN drawLock).collision_state = .Done) ∧
      (gs.collision_state = .Done →
        (processLogic gs InputEvent.none now drawN drawLock).collision_state = .Idle) := by
  refine ⟨?_, ?_, ?_, ?_⟩
  · intro hs hd
    rw [processLogic_none, hd, gravityStep_down_true]
    simp [lockStep, hs]
  · intro t0 hs hd hn
    rw [processLogic_none, hd, gravityStep_down_true]
    simp [lockStep, hs, TimerMs.update, hn]
  · intro t0 hs hd hexp
    rw [processLogic_none, hd, gravityStep_down_true]
    simp [lockStep, hs, TimerMs.update, hexp, GameState.place_current_tetramino,
      GameState.next_turn, Playfield.put_blocks, PlacedBlocks.put_blocks,
      PlacedBlocks.get_blocks, TetraminoManager.next_tetramino,
      ActiveTetramino.get_blocks_with_offset]
  · intro hs
    rw [processLogic_none]
    by_cases hd : gs.check_collision.down
    · rw [hd, gravityStep_down_true]
      simp [lockStep, hs]
    · rw [Bool.not_eq_true] at hd
      rw [hd]
      by_cases hu : (gs.descend_delay_timer.update now).2
      · simp [gravityStep, lockStep, hu, GameState.translate_cur_tetramino]
      · rw [Bool.not_eq_true] at hu
        simp [gravityStep, lockStep, hu, hs]

/-- Witness for C6: a state in the transient `Done` lock state returns to `Idle`
on the next tick. -/
theorem claim_C6_witness :
    (processLogic witnessGSDone InputEvent.none 0 .L .T).collision_state = .Idle :=
  (claim_C6 witnessGSDone 0 .L .T).2.2.2 rfl

/-- C7: in a tick where the pre-movement collision has `down = false` and the
gravity timer has expired, the active piece's offset is translated by `(1,0)`
and the lock state is forced to `Idle`, discarding any in-progress `Delaying`
timer (the timer is reset, not merely paused). -/
theorem claim_C7 (gs : GameState) (now : ℕ) (drawN drawLock : TetraminoKind)
    (hdown : gs.check_collision.down = false)
    (hexp : gs.descend_delay_timer.deadline ≤ now) :
    (processLogic gs InputEvent.none now drawN drawLock).collision_state = .Idle ∧
      (processLogic gs InputEvent.none now drawN drawLock).tetramino_manager.active.offset
        = gs.tetramino_manager.active.offset + Position.new 1 0 := by
  rw [processLogic_none, hdown]
  simp [gravityStep, lockStep, TimerMs.update, hexp, GameState.translate_cur_tetramino,
    ActiveTetramino.translate_with_offset, hdown]

/-- Witness for C7: the O piece hovering mid-air on the empty 10×10 playfield
with an expired gravity timer descends one row and the lock state ends `Idle`. -/
theorem claim_C7_witness :
    (processLogic witnessGS10 InputEvent.none 300 .L .T).collision_state = .Idle ∧
      (processLogic witnessGS10 InputEvent.none 300 .L
          .T).tetramino_manager.active.offset
        = witnessGS10.tetramino_manager.active.offset + Position.new 1 0 :=
  claim_C7 witnessGS10 300 .L .T (by decide) (by decide)

theorem check_collision_setGdPd (gs : GameState) (gd : TimerMs) (pd : PlacementDelayManager) :
    (setGdPd gs gd pd).check_collision = gs.check_collision := rfl

theorem rotationBlocked_setGdPd (gs : GameState) (gd : TimerMs) (pd : PlacementDelayManager)
    (rr : RotationResult) (k : Position) :
    (setGdPd gs gd pd).rotationBlocked rr k = gs.rotationBlocked rr k := rfl

theorem tryRotateAux_setGdPd (gs : GameState) (gd : TimerMs) (pd : PlacementDelayManager)
    (rr : RotationResult) :
    ∀ l : List Position,
      GameState.tryRotateAux (setGdPd gs gd pd) rr l
        = setGdPd (GameState.tryRotateAux gs rr l) gd pd := by
  intro l
  induction l with
  | nil => rfl
  | cons k rest ih =>
    simp only [GameState.tryRotateAux, rotationBlocked_setGdPd]
    split
    · exact ih
    · rfl

theorem try_rotate_setGdPd (gs : GameState) (gd : TimerMs) (pd : PlacementDelayManager)
    (direction : RotationDirection) :
    (setGdPd gs gd pd).try_rotate direction = setGdPd (gs.try_rotate direction) gd pd := by
  simp only [GameState.try_rotate]
  have hr : (setGdPd gs gd pd).tetramino_manager.rotate direction
      = gs.tetramino_manager.rotate direction := rfl
  rw [hr]
  exact tryRotateAux_setGdPd gs gd pd _ _

theorem ite_translate_setGdPd (c : Prop) [Decidable c] (gs : GameState) (gd : TimerMs)
    (pd : PlacementDelayManager) (p : Position) :
    (if c then (setGdPd gs gd pd).translate_cur_tetramino p else setGdPd gs gd pd)
      = setGdPd (if c then gs.translate_cur_tetramino p else gs) gd pd := by
  split <;> rfl

theorem ite_tryRotate_setGdPd (c : Prop) [Decidable c] (gs : GameState) (gd : TimerMs)
    (pd : PlacementDelayManager) (direction : RotationDirection) :
    (if c then (setGdPd gs gd pd).try_rotate direction else setGdPd gs gd pd)
      = setGdPd (if c then gs.try_rotate direction else gs) gd pd := by
  split
  · exact try_rotate_setGdPd gs gd pd direction
  · rfl

theorem ite_nextTurn_setGdPd (c : Prop) [Decidable c] (gs : GameState) (gd : TimerMs)
    (pd : PlacementDelayManager) (draw : TetraminoKind) :
    (if c then (setGdPd gs gd pd).next_turn draw else setGdPd gs gd pd)
      = setGdPd (if c then gs.next_turn draw else gs) gd pd := by
  split <;> rfl

theorem gravityStep_setGdPd (gs : GameState) (gd : TimerMs) (pd : PlacementDelayManager)
    (down : Bool) (now : ℕ) :
    gravityStep (setGdPd gs gd pd) down now = setGdPd (gravityStep gs down now) gd pd := by
  have hdt : (setGdPd gs gd pd).descend_delay_timer = gs.descend_delay_timer := rfl
  cases down with
  | true => rfl
  | false =>
    by_cases hu : (gs.descend_delay_timer.update now).2 = true
    · simp only [gravityStep, hdt, hu]
      rfl
    · rw [Bool.not_eq_true] at hu
      simp only [gravityStep, hdt, hu]
      rfl

theorem lockStep_setGdPd (gs : GameState) (gd : TimerMs) (pd : PlacementDelayManager)
    (down : Bool) (now : ℕ) (draw : TetraminoKind) :
    lockStep (setGdPd gs gd pd) down now draw = setGdPd (lockStep gs down now draw) gd pd := by
  have hcs : (setGdPd gs gd pd).collision_state = gs.collision_state := rfl
  have hpl : (setGdPd gs gd pd).place_delay_ms = gs.place_delay_ms := rfl
  unfold lockStep
  rw [hcs, hpl]
  cases hs : gs.collision_state with
  | Idle =>
    by_cases hd : down = true
    · simp only [hd, if_true, if_pos]
      rfl
    · rw [Bool.not_eq_true] at hd
      simp only [hd, Bool.false_eq_true, if_false]
      rfl
  | Delaying t0 =>
    by_cases hu : (t0.update now).2 = true
    · simp only [hu, if_true, if_pos]
      rfl
    · rw [Bool.not_eq_true] at hu
      simp only [hu, Bool.false_eq_true, if_false]
      rfl
  | Done => rfl

/-- The tick (`process_logic`) never reads (nor writes, beyond copying) the
`TetraminoManager` fields `gravity_delay` and `placement_delay`. -/
theorem processLogic_setGdPd (gs : GameState) (gd : TimerMs) (pd : PlacementDelayManager)
    (inp : InputEvent) (now : ℕ) (d1 d2 : TetraminoKind) :
    processLogic (setGdPd gs gd pd) inp now d1 d2
      = setGdPd (processLogic gs inp now d1 d2) gd pd := by
  simp only [processLogic, check_collision_setGdPd]
  rw [ite_translate_setGdPd, ite_translate_setGdPd, ite_tryRotate_setGdPd,
    ite_tryRotate_setGdPd, ite_nextTurn_setGdPd, gravityStep_setGdPd, lockStep_setGdPd]

theorem stripGdPd_setGdPd (gs : GameState) (gd : TimerMs) (pd : PlacementDelayManager) :
    stripGdPd (setGdPd gs gd pd) = stripGdPd gs := rfl

/-- C10: `GameState::new`'s arguments only populate the `TetraminoManager`
fields `gravity_delay`/`placement_delay`, which `process_logic` never reads:
the gravity timer the tick consults (`descend_delay_timer`) is always a 200 ms
timer, the lock delay used to start a `Delaying` timer (`place_delay_ms`) is
always 1000 ms, the constructed states agree on everything except the two
unread fields, the tick results likewise, and overwriting those two fields
commutes with the tick. -/
theorem claim_C10 (size : PlayfieldSize) (g1 p1 g2 p2 : ℕ) (ak nk : TetraminoKind)
    (now : ℕ) (inp : InputEvent) (now2 : ℕ) (d1 d2 : TetraminoKind) :
    (GameState.new size g1 p1 ak nk now).descend_delay_timer = TimerMs.new now 200 ∧
      (GameState.new size g1 p1 ak nk now).place_delay_ms = 1000 ∧
      stripGdPd (GameState.new size g1 p1 ak nk now)
        = stripGdPd (GameState.new size g2 p2 ak nk now) ∧
      stripGdPd (processLogic (GameState.new size g1 p1 ak nk now) inp now2 d1 d2)
        = stripGdPd (processLogic (GameState.new size g2 p2 ak nk now) inp now2 d1 d2) ∧
      ∀ (gs : GameState) (gd : TimerMs) (pd : PlacementDelayManager),
        processLogic (setGdPd gs gd pd) inp now2 d1 d2
          = setGdPd (processLogic gs inp now2 d1 d2) gd pd := by
  refine ⟨rfl, rfl, rfl, ?_, fun gs gd pd => processLogic_setGdPd gs gd pd inp now2 d1 d2⟩
  have h : GameState.new size g1 p1 ak nk now
      = setGdPd (GameState.new size g2 p2 ak nk now) (TimerMs.new now g1)
          (PlacementDelayManager.new p1 now) := rfl
  rw [h, processLogic_setGdPd, stripGdPd_setGdPd]
